import Mathlib

/-!
Verification of the research-loop orchestration engine of the seekdeep
repository (`seekdeep_core.py`) against its natural-language specification.

The Python source is shallowly embedded: pure helpers (`estimate_tokens`,
`trim_context_to_budget`, the response parsers of `process_llm_calls`) become
Lean functions over `String`/`List`; the stateful `deep_search` loop becomes a
step function `dsIter` on an explicit state record `DSState`, iterated by
`dsLoop`.  The two external collaborators — the Text Generation Service and
the Document Index — are modelled as parameters (`Env`): `gen` is the stream
of response texts returned by successive `generate` calls (the source routes
every LLM call through `generate`, whose result on a non-success HTTP status
is the empty string), and `query` is the Document Index's ranked answer to a
search.  String primitives used by the Python code (`str.strip`, `str.split`,
`str.lower`, slicing, substring tests, `repr` of lists/dicts as produced by
`str()`) are implemented over `List Char` so that every definition is
executable and concrete runs can be decided by the kernel.
-/

/- ## String primitives modelling the Python string operations used -/

/-- Is `sub` a contiguous infix of the character list? -/
def isInfixList (sub : List Char) : List Char → Bool
  | [] => sub.isEmpty
  | c :: cs => sub.isPrefixOf (c :: cs) || isInfixList sub cs

/-- Substring test: Python's `sub in s`. -/
def containsStr (s sub : String) : Bool :=
  isInfixList sub.data s.data

/-- Single-character containment: Python's `c in s`. -/
def containsChar (s : String) (c : Char) : Bool :=
  s.data.contains c

/-- Python's `str.lower()` (ASCII case folding, which is all the source relies on). -/
def pyLower (s : String) : String :=
  ⟨s.data.map Char.toLower⟩

/-- Characters stripped by Python's `str.strip()` with no argument. -/
def isPySpace (c : Char) : Bool :=
  c == ' ' || c == '\t' || c == '\n' || c == '\r' || c == '\x0b' || c == '\x0c'

/-- Python's `str.strip()`: remove leading and trailing whitespace. -/
def pyStrip (s : String) : String :=
  ⟨((s.data.dropWhile isPySpace).reverse.dropWhile isPySpace).reverse⟩

/-- Split a character list at every occurrence of `sep`, keeping empty pieces —
the behaviour of Python's `s.split(sep)` for a one-character separator. -/
def splitOnCharAux (sep : Char) : List Char → List (List Char)
  | [] => [[]]
  | c :: cs =>
    let r := splitOnCharAux sep cs
    if c == sep then [] :: r
    else
      match r with
      | [] => [[c]]
      | h :: t => (c :: h) :: t

/-- Python's `result.split(sep)` for a one-character separator `sep`. -/
def pySplit (s : String) (sep : Char) : List String :=
  (splitOnCharAux sep s.data).map String.mk

/-- Split a list at the first occurrence of the pattern `sep`, returning the
pieces before and after it, or `none` when `sep` does not occur. -/
def splitOnceAux (sep : List Char) : List Char → Option (List Char × List Char)
  | [] => if sep.isEmpty then some ([], []) else none
  | c :: cs =>
    if sep.isPrefixOf (c :: cs) then some ([], (c :: cs).drop sep.length)
    else
      match splitOnceAux sep cs with
      | some (pre, post) => some (c :: pre, post)
      | none => none

/-- Python's `s.split(sep, 1)[1]`: the text after the first occurrence of
`sep`.  Every use in the source is guarded by a containment test, so the
missing-separator branch is unreachable there; it returns `s` unchanged. -/
def pyAfterFirst (s : String) (sep : String) : String :=
  match splitOnceAux sep.data s.data with
  | some (_, post) => ⟨post⟩
  | none => s

/-- Python's slice `s[:n]` (by code point, as in the source). -/
def strTake (s : String) (n : Nat) : String :=
  ⟨s.data.take n⟩

/-- Python's `sep.join(l)`. -/
def joinSep (sep : String) : List String → String
  | [] => ""
  | [x] => x
  | x :: y :: xs => x ++ sep ++ joinSep sep (y :: xs)

/-- A single-quote character, used when rendering Python `repr` text. -/
def sqc : Char := Char.ofNat 39

/-- A double-quote character, used when rendering Python `repr` text. -/
def dqc : Char := Char.ofNat 34

/-- Hexadecimal digit for `n < 16`. -/
def hexDigit (n : Nat) : Char :=
  if n < 10 then Char.ofNat (48 + n) else Char.ofNat (87 + (n - 10))

/-- Python `repr` of one character inside a string literal quoted by `q`. -/
def pyReprChar (q : Char) (c : Char) : String :=
  if c == '\\' then "\\\\"
  else if c == q then "\\" ++ String.mk [q]
  else if c == '\n' then "\\n"
  else if c == '\r' then "\\r"
  else if c == '\t' then "\\t"
  else if c.val < 32 || c.val == 127 then
    "\\x" ++ String.mk [hexDigit ((c.val.toNat / 16) % 16), hexDigit (c.val.toNat % 16)]
  else String.mk [c]

/-- Python `repr` of a string: single-quoted unless the string contains a
single quote and no double quote. -/
def pyReprStr (s : String) : String :=
  let q : Char := if s.data.contains sqc && !s.data.contains dqc then dqc else sqc
  String.mk [q] ++ joinSep "" (s.data.map (pyReprChar q)) ++ String.mk [q]

/-- Python's `str(...)` applied to a list of strings, as in
`estimate_tokens(str(sub_questions))`. -/
def pyStrList (l : List String) : String :=
  "[" ++ joinSep ", " (l.map pyReprStr) ++ "]"

/- ## Data model (`seekdeep_core.py` type definitions) -/

/-- `SearchResult`: one retrieved passage (`text`, `metadata`, `id`).
Metadata values are opaque to the engine; they are modelled as string pairs. -/
structure SearchResult where
  text : String
  metadata : List (String × String)
  id : String
deriving DecidableEq, Repr

/-- `EvaluationResult`: the verdict parsed from an evaluate response. -/
structure EvaluationResult where
  status : String
  suggested : Option String
deriving DecidableEq, Repr

/-- Python's `str(...)` applied to the `eval_result` dict, as in
`estimate_tokens(str(eval_result))` (keys in insertion order). -/
def pyStrEval (ev : EvaluationResult) : String :=
  "\x7b" ++ String.mk [sqc] ++ "status" ++ String.mk [sqc] ++ ": " ++ pyReprStr ev.status ++
  ", " ++ String.mk [sqc] ++ "suggested" ++ String.mk [sqc] ++ ": " ++
  (match ev.suggested with
   | none => "None"
   | some s => pyReprStr s) ++ "\x7d"

/- ## Pure helpers of `seekdeep_core.py` -/

/-- `estimate_tokens`: `len(text) // 4 + 1`. -/
def estimate_tokens (text : String) : Nat :=
  text.length / 4 + 1

/-- `ContextItem`: one knowledge entry, a question paired with the context
string gathered for it (the dicts with `question` and `context` keys). -/
structure ContextItem where
  question : String
  context : String
deriving DecidableEq, Repr

/-- One iteration of the inclusion loop of `trim_context_to_budget`: include
the formatted entry when it still fits the available budget, else skip it. -/
def trimFoldStep (availableBudget : Int) (acc : List String × Nat) (item : ContextItem) :
    List String × Nat :=
  let formatted_entry := "Question: " ++ item.question ++ "\n" ++ "Context: " ++ item.context
  let entry_tokens := estimate_tokens formatted_entry
  if (acc.2 + entry_tokens : Int) ≤ availableBudget then
    (acc.1 ++ [formatted_entry], acc.2 + entry_tokens)
  else acc

/-- The included entries (in most-recent-first order) and the running token
count accumulated by `trim_context_to_budget`. -/
def trimIncluded (context_items : List ContextItem) (token_budget : Int) :
    List String × Nat :=
  let availableBudget : Int := max (token_budget - 500) 500
  (context_items.reverse).foldl (trimFoldStep availableBudget) ([], 0)

/-- `trim_context_to_budget`: include recency-prioritized entries within the
usable budget, then restore chronological order and join with blank lines. -/
def trim_context_to_budget (context_items : List ContextItem) (token_budget : Int) :
    String :=
  joinSep "\n\n" (trimIncluded context_items token_budget).1.reverse

/- ## Response parsing (`process_llm_calls`) -/

/-- The thinking-tag removal applied to every raw response: when the text
contains both markers, keep only the stripped text after the first end
marker. -/
def thinkStrip (result : String) : String :=
  if containsStr result "<think>" && containsStr result "</think>" then
    pyStrip (pyAfterFirst result "</think>")
  else result

/-- Does a stripped line start with the `^\d+\.` numbering pattern? -/
def matchNumDot (line : String) : Bool :=
  let ds := line.data.takeWhile Char.isDigit
  !ds.isEmpty && (line.data.drop ds.length).headD ' ' == '.'

/-- The decompose-mode parser (lines 279–291 of `seekdeep_core.py`): keep the
stripped, non-empty lines that are numbered or are question-mark lines longer
than 10 characters; fall back to `[question]` when nothing matched. -/
def decomposeParse (result question : String) : List String :=
  let lines := ((pySplit result '\n').map pyStrip).filter (fun l => l ≠ "")
  let questions := lines.filter
    (fun line => matchNumDot line || (containsChar line '?' && line.length > 10))
  if questions = [] then [question] else questions

/-- The evaluate-mode parser (lines 297–326 of `seekdeep_core.py`). -/
def evaluateParse (question result : String) : EvaluationResult :=
  let is_complete := containsStr (pyLower result) "satisfactory" || containsStr result "PASS"
  if is_complete then { status := "complete", suggested := none }
  else
    let lines := pySplit result '\n'
    let suggested : Option String :=
      match lines.find? (fun line => containsStr (pyLower line) "suggest" && containsStr line ":") with
      | some line => some (pyStrip (pyAfterFirst line ":"))
      | none => none
    let suggested : Option String :=
      match suggested with
      | some s =>
        if s = "" then
          (lines.find? (fun line => containsChar line '?' && line.length > 15)).map pyStrip
        else some s
      | none =>
        (lines.find? (fun line => containsChar line '?' && line.length > 15)).map pyStrip
    let suggestedFinal : String :=
      match suggested with
      | none => "more details about " ++ question
      | some s => if s = "" then "more details about " ++ question else s
    { status := "incomplete", suggested := some suggestedFinal }

/- ## The `deep_search` state machine -/

/-- A `search_history` entry: the dict `query`/`results` recorded per step
(the `query` key holds the step's question, not the expanded query). -/
structure SearchRecord where
  query : String
  results : List SearchResult
deriving DecidableEq, Repr

/-- A `research_trail` entry recorded for every answered step. -/
structure TrailRecord where
  question : String
  expanded_query : String
  search_results : List SearchResult
  answer : String
deriving DecidableEq, Repr

/-- The external collaborators of one `deep_search` run.  `gen n` is the text
returned by the `n`-th call to `generate` (the source sends every LLM call
through `generate`, which yields the response text, or `""` on a non-success
HTTP status); `query q k` is the Document Index's ranked top-`k` answer for
query `q` as formatted by `search`. -/
structure Env where
  gen : Nat → String
  query : String → Nat → List SearchResult

/-- The mutable state of the `deep_search` loop between iterations. -/
structure DSState where
  step : Nat
  genCalls : Nat
  visited : List String
  search_history : List SearchRecord
  knowledge : List ContextItem
  research_trail : List TrailRecord
  tokenUsage : Nat
  gaps : List String
deriving DecidableEq, Repr

/-- The `DeepSearchResult` dict returned by `deep_search`. -/
structure DSResult where
  answer : String
  iterations : Nat
  gap_questions : List String
  search_history : List SearchRecord
  research_trail : List TrailRecord
  beast_mode : Option Bool
deriving DecidableEq, Repr

/-- The state a `deep_search` run starts from (lines 608–617). -/
def initState (question : String) : DSState :=
  { step := 0, genCalls := 0, visited := [], search_history := [], knowledge := [],
    research_trail := [], tokenUsage := 0, gaps := [question] }

/-- The sub-question enqueueing loop of the decompose step (lines 641–643):
append each question that is neither visited nor already queued. -/
def enqueueNew (visited : List String) : List String → List String → List String
  | gaps, [] => gaps
  | gaps, q :: qs =>
    enqueueNew visited (if q ∈ visited ∨ q ∈ gaps then gaps else gaps ++ [q]) qs

/-- The queue produced by the decompose step (lines 641–648): enqueue the new
sub-questions, then re-append the original question at the tail when the
queue is non-empty and does not already hold it. -/
def decomposeBlock (question : String) (visited rest subQs : List String) : List String :=
  let gaps1 := enqueueNew visited rest subQs
  if gaps1 ≠ [] ∧ question ∉ gaps1 then gaps1 ++ [question] else gaps1

/-- `_perform_search` minus the index call (lines 356–372): combine the
retrieved texts, and truncate the combination to half the token budget
(in estimated tokens, converted back to `4` characters per token) when its
estimate exceeds that half. -/
def buildStepContext (search_results : List SearchResult) (token_budget : Nat) :
    String × Nat :=
  let context_str := joinSep "\n\n" (search_results.map SearchResult.text)
  let context_tokens := estimate_tokens context_str
  if context_tokens > token_budget / 2 then
    (strTake context_str (token_budget / 2 * 4), token_budget / 2)
  else (context_str, context_tokens)

/-- Outcome of one iteration of the `deep_search` while-loop: either an early
return (`done`) or the state carried into the next iteration (`next`). -/
inductive StepOutcome where
  | done (r : DSResult)
  | next (st : DSState)
deriving DecidableEq, Repr

/-- One iteration of the `deep_search` while-loop (lines 620–700), for a state
whose queue is `cur :: rest`: pop and visit `cur`, decompose on the first
step, expand the query, search and build (possibly truncated) context, record
history and knowledge, and on steps after the first generate and evaluate an
answer — returning early on a `complete` verdict, otherwise enqueueing a
fresh suggested follow-up. -/
def dsIter (env : Env) (question : String) (tokenBudget : Nat) (st : DSState)
    (cur : String) (rest : List String) : StepOutcome :=
  let visited := st.visited ++ [cur]
  let step := st.step + 1
  let (gaps1, gc1, usage1) :=
    if step = 1 then
      let sub_questions := decomposeParse (thinkStrip (env.gen st.genCalls)) cur
      (decomposeBlock question visited rest sub_questions,
       st.genCalls + 1,
       st.tokenUsage + (estimate_tokens (pyStrList sub_questions) + 200))
    else (rest, st.genCalls, st.tokenUsage)
  let expanded_query := thinkStrip (env.gen gc1)
  let usage2 := usage1 + (estimate_tokens expanded_query + 100)
  let gc2 := gc1 + 1
  let search_results := env.query expanded_query 3
  let (context_str, context_tokens) := buildStepContext search_results tokenBudget
  let usage3 := usage2 + context_tokens
  let history := st.search_history ++ [⟨cur, search_results⟩]
  let knowledge := st.knowledge ++ [⟨cur, context_str⟩]
  if step > 1 then
    let answer := thinkStrip (env.gen gc2)
    let usage4 := usage3 + (estimate_tokens answer + 150)
    let eval_result := evaluateParse question (thinkStrip (env.gen (gc2 + 1)))
    let usage5 := usage4 + (estimate_tokens (pyStrEval eval_result) + 100)
    let trail := st.research_trail ++ [⟨cur, expanded_query, search_results, answer⟩]
    if eval_result.status = "complete" then
      .done ⟨answer, step, visited, history, trail, none⟩
    else
      let gaps2 :=
        match eval_result.suggested with
        | some s => if s ≠ "" ∧ s ∉ visited ∧ s ∉ gaps1 then gaps1 ++ [s] else gaps1
        | none => gaps1
      .next ⟨step, gc2 + 2, visited, history, knowledge, trail, usage5, gaps2⟩
  else
    .next ⟨step, gc2, visited, history, knowledge, st.research_trail, usage3, gaps1⟩

/-- Every `next` outcome advances the step counter by exactly one. -/
theorem dsIter_next_step (env : Env) (question : String) (tokenBudget : Nat)
    (st : DSState) (cur : String) (rest : List String) (st' : DSState)
    (h : dsIter env question tokenBudget st cur rest = .next st') :
    st'.step = st.step + 1 := by
  unfold dsIter at h
  dsimp only at h
  repeat' split at h
  all_goals first
    | (cases h; rfl)
    | simp at h

/-- `_activate_beast_mode` (lines 397–427): trim the accumulated knowledge to
the remaining budget (floored at 1000), call the generation service once more
for the synthesis answer, and account its tokens. -/
def activateBeastMode (env : Env) (knowledge : List ContextItem)
    (tokenBudget usage genCalls : Nat) : String × Nat :=
  let (full_context, context_tokens) :=
    if knowledge ≠ [] then
      let remaining_budget := max (tokenBudget - usage) 1000
      let fc := trim_context_to_budget knowledge (remaining_budget : Int)
      (fc, estimate_tokens fc)
    else ("No relevant information found.", 0)
  let history_str := joinSep "\n" (knowledge.map (fun item => "Question explored: " ++ item.question))
  let beast_result := thinkStrip (env.gen genCalls)
  (beast_result, context_tokens + (estimate_tokens beast_result + 200))

/-- The synthesis fallback exit of `deep_search` (lines 702–717). -/
def dsFinish (env : Env) (tokenBudget : Nat) (st : DSState) : DSResult :=
  let (final_answer, _beast_tokens) :=
    activateBeastMode env st.knowledge tokenBudget st.tokenUsage st.genCalls
  ⟨final_answer, st.step, st.visited, st.search_history, st.research_trail, some true⟩

/-- The `deep_search` while-loop: iterate `dsIter` while the queue is
non-empty and fewer than `maxIterations` steps have run, then fall back to
synthesis. -/
def dsLoop (env : Env) (question : String) (maxIterations tokenBudget : Nat)
    (st : DSState) : DSResult :=
  match st.gaps with
  | [] => dsFinish env tokenBudget st
  | cur :: rest =>
    if hs : st.step < maxIterations then
      match ho : dsIter env question tokenBudget st cur rest with
      | .done r => r
      | .next st' => dsLoop env question maxIterations tokenBudget st'
    else dsFinish env tokenBudget st
termination_by maxIterations - st.step
decreasing_by
  have hstep := dsIter_next_step env question tokenBudget st cur rest st' ho
  omega

/-- `deep_search` itself: run the loop from the initial state whose queue
holds only the original question. -/
def deep_search (env : Env) (question : String) (maxIterations : Nat := 3)
    (tokenBudget : Nat := 5000) : DSResult :=
  dsLoop env question maxIterations tokenBudget (initState question)

/-- Projection of the state carried by a `next` outcome (used to evaluate
concrete runs claim by claim). -/
def nextStateOf (o : StepOutcome) : DSState :=
  match o with
  | .done _ => initState ""
  | .next st => st

/-- The `search_history` visible in either outcome of an iteration. -/
def historyOf (o : StepOutcome) : List SearchRecord :=
  match o with
  | .done r => r.search_history
  | .next st => st.search_history

/- ## The generation-call boundary (`generate`, lines 198–223) -/

/-- A JSON value held by the `response` field of the generation API's body:
either a string, or some non-string value (whose content the engine never
inspects). -/
inductive JsonVal where
  | str (s : String)
  | other
deriving DecidableEq, Repr

/-- An HTTP response from the Text Generation Service. -/
structure HttpResponse where
  status_code : Nat
  response_val : Option JsonVal
deriving DecidableEq, Repr

/-- `generate` (line 223): `response.json().get("response", "")` on success,
the empty string on any non-success status. -/
def generateResult (r : HttpResponse) : JsonVal :=
  if r.status_code = 200 then
    match r.response_val with
    | some v => v
    | none => .str ""
  else .str ""

/-- `process_llm_calls` in `expand` mode (lines 274–276 and 293–295): the
thinking-tag removal applies to string results, and the result is returned
verbatim. -/
def processExpand (raw : JsonVal) : JsonVal :=
  match raw with
  | .str s => .str (thinkStrip s)
  | .other => .other

/-- `_expand_search_query` (lines 344–354): take the expand-mode result,
replace it by the original question only when it is not a string, and account
the expansion tokens. -/
def expandSearchQuery (raw : JsonVal) (question : String) : String × Nat :=
  let search_query : String :=
    match processExpand raw with
    | .str s => s
    | .other => question
  (search_query, estimate_tokens search_query + 100)

/-- `process_llm_calls` in `answer` mode (lines 274–276 and 328–330): the
thinking-tag removal applies to string results, and the result is returned
verbatim. -/
def processAnswerResult (raw : JsonVal) : JsonVal :=
  match raw with
  | .str s => .str (thinkStrip s)
  | .other => .other

/-- The answer obtained by `_generate_and_evaluate` (lines 377–381): the
answer-mode result, replaced by the fixed failure string only when it is not
a string. -/
def answerFromResult (raw : JsonVal) : String :=
  match processAnswerResult raw with
  | .str s => s
  | .other => "Unable to generate an answer."

/-- The context argument substituted into the answer prompt (line 262):
Python's `context or "No relevant information found."`, where both an absent
context and an empty string are falsy. -/
def contextOrDefault (context : Option String) : String :=
  match context with
  | none => "No relevant information found."
  | some s => if s = "" then "No relevant information found." else s

/- ## Parser lemmas -/

/-- An element that does not satisfy the predicate survives `dropWhile`. -/
theorem mem_dropWhile_of_mem (p : Char → Bool) (c : Char) :
    ∀ l : List Char, c ∈ l → p c = false → c ∈ l.dropWhile p := by
  intro l
  induction l with
  | nil => intro h; cases h
  | cons a t ih =>
    intro hmem hpc
    by_cases hpa : p a = true
    · rw [List.dropWhile_cons_of_pos hpa]
      rcases List.mem_cons.mp hmem with rfl | hmt
      · rw [hpa] at hpc; cases hpc
      · exact ih hmt hpc
    · rw [List.dropWhile_cons_of_neg hpa]
      exact hmem

/-- A string containing a non-whitespace character does not strip to empty. -/
theorem pyStrip_ne_empty (s : String) (c : Char) (hmem : c ∈ s.data)
    (hc : isPySpace c = false) : pyStrip s ≠ "" := by
  intro hempty
  have hdata : (((s.data.dropWhile isPySpace).reverse.dropWhile isPySpace).reverse) = [] := by
    have := congrArg String.data hempty
    simpa [pyStrip] using this
  rw [List.reverse_eq_nil_iff] at hdata
  have hall := List.dropWhile_eq_nil_iff.mp hdata
  have h1 : c ∈ s.data.dropWhile isPySpace := mem_dropWhile_of_mem isPySpace c s.data hmem hc
  have h2 : c ∈ (s.data.dropWhile isPySpace).reverse := List.mem_reverse.mpr h1
  have := hall c h2
  rw [hc] at this
  cases this

/-- A question-mark character is not Python whitespace. -/
theorem qmark_not_space : isPySpace '?' = false := by decide

/- ## Claim C7: the decompose parser -/

/-- The kept lines, as the claim words them: the stripped non-empty response
lines that start with a digit-dot numbering pattern or contain a question
mark and have length greater than 10. -/
def specDecomposeKept (result : String) : List String :=
  (((pySplit result '\n').map pyStrip).filter (fun l => l ≠ "")).filter
    (fun line => matchNumDot line || (containsChar line '?' && line.length > 10))

/-- C7 — confirmed.  The decompose operation keeps exactly the qualifying
lines, in order, falls back to `[question]` when no line matches (so it never
returns an empty list), and on the scenario response
`"1. What is A?\n2. What is B?\nSome filler.\n"` returns exactly
`["1. What is A?", "2. What is B?"]`. -/
theorem c7_decompose_parse (result question : String) :
    decomposeParse result question =
      (if specDecomposeKept result = [] then [question] else specDecomposeKept result)
    ∧ decomposeParse result question ≠ []
    ∧ decomposeParse "1. What is A?\n2. What is B?\nSome filler.\n" question =
        ["1. What is A?", "2. What is B?"] := by
  have hkept : decomposeParse result question =
      (if specDecomposeKept result = [] then [question] else specDecomposeKept result) := rfl
  refine ⟨hkept, ?_, ?_⟩
  · rw [hkept]
    split
    · simp
    · assumption
  · have hs : specDecomposeKept "1. What is A?\n2. What is B?\nSome filler.\n" =
        ["1. What is A?", "2. What is B?"] := by decide
    have h2 : decomposeParse "1. What is A?\n2. What is B?\nSome filler.\n" question =
        (if specDecomposeKept "1. What is A?\n2. What is B?\nSome filler.\n" = []
         then [question] else specDecomposeKept "1. What is A?\n2. What is B?\nSome filler.\n") := rfl
    rw [h2, hs]
    simp

/- ## Claim C6: the evaluate parser -/

/-- Completion test, as the claim words it: the response contains
"satisfactory" case-insensitively, or the literal token "PASS". -/
def specEvalComplete (result : String) : Bool :=
  containsStr (pyLower result) "satisfactory" || containsStr result "PASS"

/-- The suggested follow-up, as the claim words it: (a) the stripped text
after the colon of the first line containing "suggest" (case-insensitively)
and a colon — falling through when that text is empty, as the source's
truthiness check does; else (b) the stripped first line containing a question
mark with length greater than 15; else (c) the synthetic fallback. -/
def specEvalSuggested (question result : String) : String :=
  let lines := pySplit result '\n'
  let fromColon : Option String :=
    (lines.find? (fun line => containsStr (pyLower line) "suggest" && containsStr line ":")).map
      (fun line => pyStrip (pyAfterFirst line ":"))
  let fromQuestionMark : Option String :=
    (lines.find? (fun line => containsChar line '?' && line.length > 15)).map pyStrip
  let fallback := "more details about " ++ question
  match fromColon with
  | some s =>
    if s = "" then
      match fromQuestionMark with
      | some t => t
      | none => fallback
    else s
  | none =>
    match fromQuestionMark with
    | some t => t
    | none => fallback

/-- C6 — confirmed.  The evaluate operation reports `complete` exactly when
the response contains "satisfactory" (case-insensitive) or the literal token
"PASS" (with no suggestion in that case), otherwise `incomplete` with the
suggestion extracted by the (a)/(b)/(c) cascade; the two scenario responses
parse as the claim states. -/
theorem c6_evaluate_parse (question result : String) :
    evaluateParse question result =
      (if specEvalComplete result then { status := "complete", suggested := none }
       else { status := "incomplete", suggested := some (specEvalSuggested question result) })
    ∧ evaluateParse question "Relevance: PASS\n...this is satisfactory." =
        { status := "complete", suggested := none }
    ∧ evaluateParse question "Relevance: FAIL\nSuggest: What is X?\n" =
        { status := "incomplete", suggested := some "What is X?" } := by
  refine ⟨?_, rfl, rfl⟩
  unfold evaluateParse specEvalComplete specEvalSuggested
  by_cases hc :
      (containsStr (pyLower result) "satisfactory" || containsStr result "PASS") = true
  · simp only [hc, if_true]
  · simp only [Bool.not_eq_true] at hc
    simp only [hc, Bool.false_eq_true, if_false]
    cases hfc : (pySplit result '\n').find?
        (fun line => containsStr (pyLower line) "suggest" && containsStr line ":") with
    | none =>
      cases hfq : (pySplit result '\n').find?
          (fun line => containsChar line '?' && line.length > 15) with
      | none => simp [hfc, hfq]
      | some line2 =>
        have hpred := List.find?_some hfq
        have hq : containsChar line2 '?' = true := by
          have := Bool.and_elim_left hpred
          exact this
        have hne : pyStrip line2 ≠ "" :=
          pyStrip_ne_empty line2 '?' (List.mem_of_elem_eq_true hq) qmark_not_space
        simp [hfc, hfq, hne]
    | some line1 =>
      by_cases hempty : pyStrip (pyAfterFirst line1 ":") = ""
      · cases hfq : (pySplit result '\n').find?
            (fun line => containsChar line '?' && line.length > 15) with
        | none => simp [hfc, hempty, hfq]
        | some line2 =>
          have hpred := List.find?_some hfq
          have hq : containsChar line2 '?' = true := Bool.and_elim_left hpred
          have hne : pyStrip line2 ≠ "" :=
            pyStrip_ne_empty line2 '?' (List.mem_of_elem_eq_true hq) qmark_not_space
          simp [hfc, hempty, hfq, hne]
      · simp [hfc, hempty]

/- ## Claim C3: the context budgeter -/

/-- The running count of the inclusion fold is the total of the per-entry
estimates, and it never exceeds the available budget. -/
theorem trimFold_count (B : Int) (hB : (0 : Int) ≤ B) :
    ∀ (items : List ContextItem) (acc : List String × Nat),
      acc.2 = (acc.1.map estimate_tokens).sum → (acc.2 : Int) ≤ B →
      (items.foldl (trimFoldStep B) acc).2 =
          (((items.foldl (trimFoldStep B) acc).1.map estimate_tokens).sum)
        ∧ ((items.foldl (trimFoldStep B) acc).2 : Int) ≤ B := by
  intro items
  induction items with
  | nil => intro acc h1 h2; exact ⟨h1, h2⟩
  | cons item t ih =>
    intro acc h1 h2
    rw [List.foldl_cons]
    unfold trimFoldStep
    dsimp only
    split
    · apply ih
      · simp [h1, List.sum_append]
      · assumption
    · exact ih acc h1 h2

/-- Each entry's length is below four times its token estimate. -/
theorem length_lt_four_mul_estimate (s : String) :
    s.length + 1 ≤ 4 * estimate_tokens s := by
  unfold estimate_tokens
  omega

/-- Summed over a list of entries: total length plus count is at most four
times the total estimate. -/
theorem sum_length_le (l : List String) :
    (l.map String.length).sum + l.length ≤ 4 * (l.map estimate_tokens).sum := by
  induction l with
  | nil => simp
  | cons s t ih =>
    simp only [List.map_cons, List.sum_cons, List.length_cons]
    have hs := length_lt_four_mul_estimate s
    omega

/-- Every entry estimates to at least one token, so the count bounds the
list length. -/
theorem length_le_sum_estimate (l : List String) :
    l.length ≤ (l.map estimate_tokens).sum := by
  induction l with
  | nil => simp
  | cons s t ih =>
    simp only [List.map_cons, List.sum_cons, List.length_cons]
    have hs : 1 ≤ estimate_tokens s := Nat.le_add_left 1 _
    omega

/-- Length of a blank-line join: entry lengths plus two per separator. -/
theorem joinSep2_length :
    ∀ l : List String,
      (joinSep "\n\n" l).length = (l.map String.length).sum + 2 * (l.length - 1) := by
  intro l
  induction l with
  | nil => simp [joinSep]
  | cons x t ih =>
    cases t with
    | nil => simp [joinSep]
    | cons y ys =>
      rw [joinSep]
      rw [String.length_append, String.length_append, ih]
      simp only [List.map_cons, List.sum_cons, List.length_cons]
      have h2 : ("\n\n" : String).length = 2 := rfl
      rw [h2]
      omega

/-- The re-estimate of a blank-line join exceeds the total of the per-entry
estimates only by the separator-and-rounding slack. -/
theorem estimate_joinSep_le (l : List String) :
    estimate_tokens (joinSep "\n\n" l) ≤
      max ((l.map estimate_tokens).sum) 1 + (l.length + 2) / 4 := by
  cases l with
  | nil =>
    simp [joinSep, estimate_tokens]
  | cons x t =>
    have hlen := joinSep2_length (x :: t)
    have hsum := sum_length_le (x :: t)
    have hk := length_le_sum_estimate (x :: t)
    have hkpos : 1 ≤ (x :: t).length := by simp
    have hmax : max (((x :: t).map estimate_tokens).sum) 1 =
        (((x :: t).map estimate_tokens).sum) := by
      have : 1 ≤ (((x :: t).map estimate_tokens).sum) := le_trans hkpos hk
      omega
    rw [hmax]
    unfold estimate_tokens
    unfold estimate_tokens at hsum
    rw [hlen]
    omega

/-- C3 — corrected.  The running total of the per-entry token estimates of
the entries selected by `trim_context_to_budget` never exceeds the usable
budget `max(budget - 500, 500)`; the re-estimated token count of the joined
output string, however, is only bounded by that total plus the rounding and
blank-line-separator slack, `(number of included entries + 2) / 4` — the
original claim's bound on the re-estimate itself does not hold (see the
counterexample). -/
theorem c3_trim_budget_amended (context_items : List ContextItem) (token_budget : Int) :
    ((trimIncluded context_items token_budget).2 : Int) ≤ max (token_budget - 500) 500
    ∧ (trimIncluded context_items token_budget).2 =
        (((trimIncluded context_items token_budget).1.map estimate_tokens).sum)
    ∧ (estimate_tokens (trim_context_to_budget context_items token_budget) : Int) ≤
        max (token_budget - 500) 500 +
          (((trimIncluded context_items token_budget).1.length + 2) / 4 : Nat) := by
  have hBig : (500 : Int) ≤ max (token_budget - 500) 500 :=
    le_max_right (token_budget - 500) (500 : Int)
  have hB : (0 : Int) ≤ max (token_budget - 500) 500 := by omega
  have hfold := trimFold_count (max (token_budget - 500) 500) hB
    context_items.reverse ([], 0) (by simp) (by exact_mod_cast hB)
  have hcount : (trimIncluded context_items token_budget).2 =
      (((trimIncluded context_items token_budget).1.map estimate_tokens).sum) := hfold.1
  have hle : ((trimIncluded context_items token_budget).2 : Int) ≤
      max (token_budget - 500) 500 := hfold.2
  refine ⟨hle, hcount, ?_⟩
  have hjoin := estimate_joinSep_le (trimIncluded context_items token_budget).1.reverse
  rw [List.map_reverse, List.sum_reverse, List.length_reverse] at hjoin
  have hTB : ((((trimIncluded context_items token_budget).1.map estimate_tokens).sum : Nat) : Int) ≤
      max (token_budget - 500) 500 := by
    rw [← hcount]; exact hle
  have hmaxle : ((max (((trimIncluded context_items token_budget).1.map estimate_tokens).sum) 1 : Nat) : Int) ≤
      max (token_budget - 500) 500 := by
    rw [Nat.cast_max]
    apply max_le hTB
    omega
  have : (estimate_tokens (trim_context_to_budget context_items token_budget) : Int) ≤
      ((max (((trimIncluded context_items token_budget).1.map estimate_tokens).sum) 1 : Nat) : Int) +
        ((((trimIncluded context_items token_budget).1.length + 2) / 4 : Nat) : Int) := by
    unfold trim_context_to_budget
    exact_mod_cast hjoin
  omega

set_option maxRecDepth 40000 in
/-- C3 — counterexample to the claim as stated: three items whose entries
estimate to 167, 167 and 166 tokens (total 500, all included under usable
budget `max(1000-500,500) = 500`), yet the joined output re-estimates to 501
tokens. -/
theorem c3_trim_counterexample :
    ¬ ((estimate_tokens (trim_context_to_budget
        [⟨"", String.mk (List.replicate 647 'x')⟩,
         ⟨"", String.mk (List.replicate 647 'x')⟩,
         ⟨"", String.mk (List.replicate 643 'x')⟩] 1000) : Int) ≤
      max ((1000 : Int) - 500) 500) := by decide

/- ## Claim C9: answer-operation fallbacks -/

/-- C9 — counterexample to the claim as stated: an empty string produced by
the generation call is returned unchanged as the answer; it is not replaced
by the fixed failure string. -/
theorem c9_empty_answer_counterexample :
    answerFromResult (.str "") = "" ∧ ("" : String) ≠ "Unable to generate an answer." :=
  ⟨rfl, by decide⟩

/-- C9 — corrected.  When the supplied context is empty (or absent) the
answer prompt receives the fixed "No relevant information found." placeholder;
the fixed failure string is substituted only when the generation call produced
a non-string result — an empty string result is returned unchanged (still
without raising); a non-empty context passes through verbatim. -/
theorem c9_answer_fallback_amended (s : String) (hs : s ≠ "") :
    contextOrDefault none = "No relevant information found."
    ∧ contextOrDefault (some "") = "No relevant information found."
    ∧ contextOrDefault (some s) = s
    ∧ answerFromResult JsonVal.other = "Unable to generate an answer."
    ∧ (∀ t : String, answerFromResult (.str t) = thinkStrip t) := by
  refine ⟨rfl, rfl, ?_, rfl, fun t => rfl⟩
  simp [contextOrDefault, hs]

/-- C9 — witness: the amended statement applied to the non-empty context
"ctx". -/
theorem c9_answer_fallback_witness :
    ("ctx" : String) ≠ "" ∧ contextOrDefault (some "ctx") = "ctx" :=
  ⟨by decide, (c9_answer_fallback_amended "ctx" (by decide)).2.2.1⟩

/- ## Claim C10: empty expanded query on generation failure -/

/-- C10 — confirmed.  A non-success generation response yields the empty
string, which `_expand_search_query` passes through unchanged (the fallback
to the original question fires only for non-string results), so a step whose
expand call returned the empty string records the Document Index's answer for
the empty query in its search history. -/
theorem c10_expand_empty_query :
    (∀ (r : HttpResponse) (question : String), r.status_code ≠ 200 →
        (expandSearchQuery (generateResult r) question).1 = "")
    ∧ (∀ question : String, (expandSearchQuery JsonVal.other question).1 = question)
    ∧ (∀ (env : Env) (question : String) (tokenBudget : Nat) (st : DSState)
        (cur : String) (rest : List String),
        1 ≤ st.step → env.gen st.genCalls = "" →
        historyOf (dsIter env question tokenBudget st cur rest) =
          st.search_history ++ [⟨cur, env.query "" 3⟩]) := by
  refine ⟨?_, fun question => rfl, ?_⟩
  · intro r question hr
    unfold generateResult
    rw [if_neg hr]
    rfl
  · intro env question tokenBudget st cur rest h1 hgen
    unfold dsIter
    dsimp only
    have hne : ¬ (st.step + 1 = 1) := by omega
    rw [if_neg hne]
    dsimp only
    rw [hgen]
    have hts : thinkStrip "" = "" := rfl
    rw [hts]
    repeat' split
    all_goals rfl

/-- An environment whose generation service always fails (empty responses),
used to exercise concrete failure runs. -/
def failEnv : Env := ⟨fun _ => "", fun q _ => [⟨"doc for " ++ q, [], "doc_0"⟩]⟩

/-- A mid-run state (one step already taken) used to exercise concrete
answered steps. -/
def midState : DSState :=
  { step := 1, genCalls := 0, visited := ["Q"], search_history := [], knowledge := [],
    research_trail := [], tokenUsage := 0, gaps := ["g1", "g2"] }

/-- C10 — witness: a 404 response expands to the empty query, and a mid-run
step whose expand call answered `""` records the index's results for the
empty query. -/
theorem c10_expand_empty_query_witness :
    ((404 : Nat) ≠ 200
      ∧ (expandSearchQuery (generateResult ⟨404, some (.str "ignored")⟩) "orig").1 = "")
    ∧ (1 ≤ midState.step ∧ failEnv.gen midState.genCalls = ""
      ∧ historyOf (dsIter failEnv "Q" 100 midState "g1" ["g2"]) =
          midState.search_history ++ [⟨"g1", failEnv.query "" 3⟩]) :=
  ⟨⟨by decide, c10_expand_empty_query.1 ⟨404, some (.str "ignored")⟩ "orig" (by decide)⟩,
   by decide, rfl,
   c10_expand_empty_query.2.2 failEnv "Q" 100 midState "g1" ["g2"] (by decide) rfl⟩

/- ## Claim C5: the iteration bound -/

/-- The synthesis exit reports the step count reached. -/
theorem dsFinish_iterations (env : Env) (tokenBudget : Nat) (st : DSState) :
    (dsFinish env tokenBudget st).iterations = st.step := rfl

/-- Every `done` outcome reports the incremented step count and no synthesis. -/
theorem dsIter_done_shape (env : Env) (question : String) (tokenBudget : Nat)
    (st : DSState) (cur : String) (rest : List String) (r : DSResult)
    (h : dsIter env question tokenBudget st cur rest = .done r) :
    r.iterations = st.step + 1 ∧ r.beast_mode = none := by
  unfold dsIter at h
  dsimp only at h
  repeat' split at h
  all_goals first
    | (cases h; exact ⟨rfl, rfl⟩)
    | simp at h

/-- Along the loop, the reported iteration count never exceeds the cap,
provided the state's step counter has not already exceeded it. -/
theorem dsLoop_iterations_le (env : Env) (question : String)
    (maxIterations tokenBudget : Nat) (st : DSState) (hst : st.step ≤ maxIterations) :
    (dsLoop env question maxIterations tokenBudget st).iterations ≤ maxIterations := by
  induction st using dsLoop.induct env question maxIterations tokenBudget with
  | case1 st hgaps =>
    rw [dsLoop.eq_def, hgaps]
    dsimp only
    rw [dsFinish_iterations]
    exact hst
  | case2 st cur rest hgaps hlt r hdone =>
    rw [dsLoop.eq_def, hgaps]
    dsimp only
    rw [dif_pos hlt]
    split
    · next r2 heq =>
      rw [hdone] at heq
      cases heq
      have := (dsIter_done_shape env question tokenBudget st cur rest r hdone).1
      omega
    · next st2 heq =>
      rw [hdone] at heq
      cases heq
  | case3 st cur rest hgaps hlt st' hnext ih =>
    rw [dsLoop.eq_def, hgaps]
    dsimp only
    rw [dif_pos hlt]
    split
    · next r2 heq =>
      rw [hnext] at heq
      cases heq
    · next st2 heq =>
      rw [hnext] at heq
      cases heq
      apply ih
      have := dsIter_next_step env question tokenBudget st cur rest st' hnext
      omega
  | case4 st cur rest hgaps hge =>
    rw [dsLoop.eq_def, hgaps]
    dsimp only
    rw [dif_neg hge]
    rw [dsFinish_iterations]
    exact hst

/-- C5 — confirmed.  For every `max_iterations ≥ 1`, a run performs at most
`max_iterations` steps before falling back to synthesis: the `iterations`
field of the returned result never exceeds `max_iterations`. -/
theorem c5_iterations_le_max (env : Env) (question : String)
    (maxIterations tokenBudget : Nat) (hmi : 1 ≤ maxIterations) :
    (deep_search env question maxIterations tokenBudget).iterations ≤ maxIterations := by
  unfold deep_search
  exact dsLoop_iterations_le env question maxIterations tokenBudget (initState question)
    (by simp [initState])

/-- C5 — witness: a concrete single-iteration failing run stays within the
cap. -/
theorem c5_iterations_le_max_witness :
    1 ≤ 1 ∧ (deep_search failEnv "Q" 1 100).iterations ≤ 1 :=
  ⟨by decide, c5_iterations_le_max failEnv "Q" 1 100 (by decide)⟩

/- ## Claim C4: immediate return on a complete verdict -/

/-- On a step after the first whose evaluate verdict is `complete`, the
iteration returns early with exactly the step's answer and data, no synthesis
flag, and the incremented step count. -/
theorem dsIter_complete (env : Env) (question : String) (tokenBudget : Nat)
    (st : DSState) (cur : String) (rest : List String) (h1 : 1 ≤ st.step)
    (hc : (evaluateParse question (thinkStrip (env.gen (st.genCalls + 1 + 1)))).status =
      "complete") :
    dsIter env question tokenBudget st cur rest =
      .done ⟨thinkStrip (env.gen (st.genCalls + 1)), st.step + 1, st.visited ++ [cur],
             st.search_history ++ [⟨cur, env.query (thinkStrip (env.gen st.genCalls)) 3⟩],
             st.research_trail ++ [⟨cur, thinkStrip (env.gen st.genCalls),
               env.query (thinkStrip (env.gen st.genCalls)) 3,
               thinkStrip (env.gen (st.genCalls + 1))⟩],
             none⟩ := by
  unfold dsIter
  dsimp only
  have hne : ¬ (st.step + 1 = 1) := by omega
  rw [if_neg hne]
  dsimp only
  have hgt : st.step + 1 > 1 := by omega
  rw [if_pos hgt]
  rw [if_pos hc]

/-- C4 — confirmed.  Whenever an evaluation step of `deep_search` yields
`status = complete`, the loop returns that step's answer immediately with
`beast_mode = none` (no synthesis), iteration count `step + 1`, and without
processing any of the remaining queued gaps — the result is independent of
the remaining queue `rest`. -/
theorem c4_complete_returns_immediately (env : Env) (question : String)
    (maxIterations tokenBudget : Nat) (st : DSState) (cur : String) (rest : List String)
    (hg : st.gaps = cur :: rest) (hlt : st.step < maxIterations) (h1 : 1 ≤ st.step)
    (hc : (evaluateParse question (thinkStrip (env.gen (st.genCalls + 1 + 1)))).status =
      "complete") :
    dsLoop env question maxIterations tokenBudget st =
      ⟨thinkStrip (env.gen (st.genCalls + 1)), st.step + 1, st.visited ++ [cur],
       st.search_history ++ [⟨cur, env.query (thinkStrip (env.gen st.genCalls)) 3⟩],
       st.research_trail ++ [⟨cur, thinkStrip (env.gen st.genCalls),
         env.query (thinkStrip (env.gen st.genCalls)) 3,
         thinkStrip (env.gen (st.genCalls + 1))⟩],
       none⟩ := by
  have hdone := dsIter_complete env question tokenBudget st cur rest h1 hc
  rw [dsLoop.eq_def, hg]
  dsimp only
  rw [dif_pos hlt]
  split
  · next r heq =>
    rw [hdone] at heq
    cases heq
    rfl
  · next st' heq =>
    rw [hdone] at heq
    cases heq

/-- An environment whose third generation response declares the answer
satisfactory, used to exercise a completing run. -/
def completeEnv : Env :=
  ⟨fun n => if n = 2 then "This is satisfactory." else "r", fun _ _ => []⟩

/-- C4 — witness: a concrete mid-run state with two queued gaps returns after
the current step with no synthesis, leaving the second gap unprocessed. -/
theorem c4_complete_returns_immediately_witness :
    midState.gaps = "g1" :: ["g2"] ∧ midState.step < 3 ∧ 1 ≤ midState.step
    ∧ (evaluateParse "Q" (thinkStrip (completeEnv.gen (midState.genCalls + 1 + 1)))).status =
        "complete"
    ∧ dsLoop completeEnv "Q" 3 5000 midState =
        ⟨thinkStrip (completeEnv.gen (midState.genCalls + 1)), midState.step + 1,
         midState.visited ++ ["g1"],
         midState.search_history ++
           [⟨"g1", completeEnv.query (thinkStrip (completeEnv.gen midState.genCalls)) 3⟩],
         midState.research_trail ++ [⟨"g1", thinkStrip (completeEnv.gen midState.genCalls),
           completeEnv.query (thinkStrip (completeEnv.gen midState.genCalls)) 3,
           thinkStrip (completeEnv.gen (midState.genCalls + 1))⟩],
         none⟩ :=
  ⟨rfl, by decide, by decide, by decide,
   c4_complete_returns_immediately completeEnv "Q" 3 5000 midState "g1" ["g2"]
     rfl (by decide) (by decide) (by decide)⟩

/- ## Claim C2: mid-run context truncation -/

/-- An environment whose index returns one 20-character passage, exercising
the mid-run truncation against a small budget. -/
def longDocEnv : Env :=
  ⟨fun _ => "", fun _ _ => [⟨String.mk (List.replicate 20 'a'), [], "doc_0"⟩]⟩

/-- C2 — counterexample to the claim as stated: with `token_budget = 8`, the
context recorded in the knowledge sequence for the first step is the
retrieved text truncated to `(8 / 2) * 4 = 16` characters, not the unmodified
20-character concatenation of the retrieved texts. -/
theorem c2_truncation_counterexample :
    (nextStateOf (dsIter longDocEnv "Q" 8 (initState "Q") "Q" [])).knowledge =
      [⟨"Q", String.mk (List.replicate 16 'a')⟩]
    ∧ joinSep "\n\n" ((longDocEnv.query (thinkStrip (longDocEnv.gen 1)) 3).map
        SearchResult.text) = String.mk (List.replicate 20 'a')
    ∧ String.mk (List.replicate 16 'a') ≠ String.mk (List.replicate 20 'a') :=
  ⟨by decide, by decide, by decide⟩

/-- C2 — corrected.  The context string appended to the knowledge sequence
during a (non-returning) step is the concatenation of the retrieved texts
*after* the per-step budget check of `_perform_search`: it is the unmodified
concatenation only when its estimate does not exceed `token_budget / 2`, and
otherwise it is truncated to the first `(token_budget / 2) * 4` characters —
so truncation against the token budget does occur before the final synthesis
step. -/
theorem c2_step_context_amended (env : Env) (question : String) (tokenBudget : Nat)
    (st : DSState) (cur : String) (rest : List String) (st' : DSState)
    (h : dsIter env question tokenBudget st cur rest = .next st') :
    st'.knowledge = st.knowledge ++
      [⟨cur, (buildStepContext
          (env.query (thinkStrip (env.gen
            (if st.step + 1 = 1 then st.genCalls + 1 else st.genCalls))) 3)
          tokenBudget).1⟩]
    ∧ ∀ rs : List SearchResult,
        (buildStepContext rs tokenBudget).1 =
          (if estimate_tokens (joinSep "\n\n" (rs.map SearchResult.text)) > tokenBudget / 2
           then strTake (joinSep "\n\n" (rs.map SearchResult.text)) (tokenBudget / 2 * 4)
           else joinSep "\n\n" (rs.map SearchResult.text)) := by
  constructor
  · unfold dsIter at h
    dsimp only at h
    by_cases hone : st.step + 1 = 1
    · rw [if_pos hone] at h
      rw [if_pos hone]
      dsimp only at h
      split at h
      · split at h
        · simp at h
        · split at h
          all_goals (cases h; rfl)
      · cases h; rfl
    · rw [if_neg hone] at h
      rw [if_neg hone]
      dsimp only at h
      split at h
      · split at h
        · simp at h
        · split at h
          all_goals (cases h; rfl)
      · cases h; rfl
  · intro rs
    unfold buildStepContext
    dsimp only
    split
    · rfl
    · rfl

/-- C2 — witness: the amended statement applied to the concrete truncating
run. -/
theorem c2_step_context_witness :
    dsIter longDocEnv "Q" 8 (initState "Q") "Q" [] =
      .next (nextStateOf (dsIter longDocEnv "Q" 8 (initState "Q") "Q" []))
    ∧ ((nextStateOf (dsIter longDocEnv "Q" 8 (initState "Q") "Q" [])).knowledge =
        (initState "Q").knowledge ++
          [⟨"Q", (buildStepContext
              (longDocEnv.query (thinkStrip (longDocEnv.gen
                (if (initState "Q").step + 1 = 1
                 then (initState "Q").genCalls + 1
                 else (initState "Q").genCalls))) 3) 8).1⟩]
      ∧ ∀ rs : List SearchResult,
          (buildStepContext rs 8).1 =
            (if estimate_tokens (joinSep "\n\n" (rs.map SearchResult.text)) > 8 / 2
             then strTake (joinSep "\n\n" (rs.map SearchResult.text)) (8 / 2 * 4)
             else joinSep "\n\n" (rs.map SearchResult.text))) :=
  ⟨by decide,
   c2_step_context_amended longDocEnv "Q" 8 (initState "Q") "Q" [] _ (by decide)⟩

/- ## Claim C8: queue after a fallback decomposition -/

/-- An environment whose decompose response has no parsable sub-question
lines. -/
def noParseEnv : Env := ⟨fun _ => "filler", fun _ _ => []⟩

/-- C8 — counterexample to the claim as stated: when decomposition of "abc"
falls back to `["abc"]`, the queue immediately after the decompose step of
`deep_search` is empty — "abc" was popped into the visited set before
decomposition, so the fallback entry is suppressed — not `["abc"]`. -/
theorem c8_fallback_counterexample :
    decomposeParse (thinkStrip (noParseEnv.gen 0)) "abc" = ["abc"]
    ∧ (nextStateOf (dsIter noParseEnv "abc" 5000 (initState "abc") "abc" [])).gaps = []
    ∧ (nextStateOf (dsIter noParseEnv "abc" 5000 (initState "abc") "abc" [])).gaps ≠
        ["abc"] :=
  ⟨by decide, by decide, by decide⟩

/-- C8 — corrected.  If decomposition of the input question yields no
parsable sub-questions (the fallback returns the question itself), then the
gap queue immediately after the decompose step of `deep_search` is empty: the
original question is already in the visited set when the sub-questions are
enqueued, so the fallback entry is filtered out and, the queue being empty,
the original question is not re-appended. -/
theorem c8_fallback_amended (env : Env) (question : String) (tokenBudget : Nat)
    (hfb : decomposeParse (thinkStrip (env.gen 0)) question = [question]) :
    decomposeBlock question [question] []
        (decomposeParse (thinkStrip (env.gen 0)) question) = []
    ∧ (nextStateOf (dsIter env question tokenBudget (initState question) question [])).gaps =
        [] := by
  have hblock : decomposeBlock question [question] []
      (decomposeParse (thinkStrip (env.gen 0)) question) = [] := by
    rw [hfb]
    unfold decomposeBlock enqueueNew
    simp [enqueueNew]
  refine ⟨hblock, ?_⟩
  unfold dsIter
  dsimp only [initState]
  rw [if_pos rfl]
  dsimp only
  rw [if_neg (by omega : ¬ (0 + 1 > 1))]
  dsimp only [nextStateOf]
  simpa using hblock

/-- C8 — witness: the amended statement applied to the unparsable "filler"
response. -/
theorem c8_fallback_amended_witness :
    decomposeParse (thinkStrip (noParseEnv.gen 0)) "abc" = ["abc"]
    ∧ (decomposeBlock "abc" ["abc"] []
        (decomposeParse (thinkStrip (noParseEnv.gen 0)) "abc") = []
      ∧ (nextStateOf (dsIter noParseEnv "abc" 5000 (initState "abc") "abc" [])).gaps = []) :=
  ⟨by decide, c8_fallback_amended noParseEnv "abc" 5000 (by decide)⟩

/- ## Claim C1: the queue/visited invariant -/

/-- Whatever `enqueueNew` adds beyond the existing queue was not visited. -/
theorem enqueueNew_mem (visited : List String) :
    ∀ (qs gaps : List String) (x : String),
      x ∈ enqueueNew visited gaps qs → x ∈ gaps ∨ x ∉ visited := by
  intro qs
  induction qs with
  | nil =>
    intro gaps x hx
    rw [enqueueNew] at hx
    exact Or.inl hx
  | cons q t ih =>
    intro gaps x hx
    rw [enqueueNew] at hx
    rcases ih _ x hx with hmem | hnv
    · split at hmem
      · exact Or.inl hmem
      · next hcond =>
        rcases List.mem_append.mp hmem with hmem2 | hmem2
        · exact Or.inl hmem2
        · have hx2 : x = q := by simpa using hmem2
          subst hx2
          exact Or.inr (fun hv => hcond (Or.inl hv))
    · exact Or.inr hnv

/-- `enqueueNew` preserves queue duplicate-freedom. -/
theorem enqueueNew_nodup (visited : List String) :
    ∀ (qs gaps : List String), gaps.Nodup → (enqueueNew visited gaps qs).Nodup := by
  intro qs
  induction qs with
  | nil => intro gaps h; rw [enqueueNew]; exact h
  | cons q t ih =>
    intro gaps h
    rw [enqueueNew]
    apply ih
    split
    · exact h
    · next hcond =>
      have hq : q ∉ gaps := fun hmem => hcond (Or.inr hmem)
      rw [List.nodup_append]
      refine ⟨h, List.nodup_singleton q, ?_⟩
      intro a ha hb
      rw [List.mem_singleton] at hb
      subst hb
      exact hq ha

/-- The decompose step keeps the queue duplicate-free, and the only visited
entry it can introduce is the original question itself. -/
theorem decomposeBlock_inv (question : String) (visited rest subQs : List String)
    (hnd : rest.Nodup) (hinv : ∀ x ∈ rest, x ∈ visited → x = question) :
    (decomposeBlock question visited rest subQs).Nodup
    ∧ ∀ x ∈ decomposeBlock question visited rest subQs, x ∈ visited → x = question := by
  have hnd1 : (enqueueNew visited rest subQs).Nodup := enqueueNew_nodup visited subQs rest hnd
  have hinv1 : ∀ x ∈ enqueueNew visited rest subQs, x ∈ visited → x = question := by
    intro x hx hv
    rcases enqueueNew_mem visited subQs rest x hx with hg | hnv
    · exact hinv x hg hv
    · exact absurd hv hnv
  unfold decomposeBlock
  dsimp only
  split
  · next hcond =>
    constructor
    · rw [List.nodup_append]
      refine ⟨hnd1, List.nodup_singleton question, ?_⟩
      intro a ha hb
      rw [List.mem_singleton] at hb
      subst hb
      exact hcond.2 ha
    · intro x hx hv
      rcases List.mem_append.mp hx with h1 | h1
      · exact hinv1 x h1 hv
      · simpa using h1
  · exact ⟨hnd1, hinv1⟩

/-- One loop iteration preserves the amended queue invariant: the queue stays
duplicate-free, and its only possibly-visited entry is the original
question. -/
theorem dsIter_queue_inv (env : Env) (question : String) (tokenBudget : Nat)
    (st : DSState) (cur : String) (rest : List String) (st' : DSState)
    (hg : st.gaps = cur :: rest)
    (h : dsIter env question tokenBudget st cur rest = .next st')
    (hnd : st.gaps.Nodup) (hinv : ∀ x ∈ st.gaps, x ∈ st.visited → x = question) :
    st'.gaps.Nodup ∧ ∀ x ∈ st'.gaps, x ∈ st'.visited → x = question := by
  rw [hg] at hnd hinv
  have hcnr : cur ∉ rest := (List.nodup_cons.mp hnd).1
  have hndr : rest.Nodup := (List.nodup_cons.mp hnd).2
  have hinvr : ∀ x ∈ rest, x ∈ st.visited ++ [cur] → x = question := by
    intro x hx hv
    rcases List.mem_append.mp hv with h1 | h1
    · exact hinv x (List.mem_cons_of_mem cur hx) h1
    · rw [List.mem_singleton] at h1
      subst h1
      exact absurd hx hcnr
  unfold dsIter at h
  dsimp only at h
  by_cases hone : st.step + 1 = 1
  · rw [if_pos hone] at h
    dsimp only at h
    have hblock := decomposeBlock_inv question (st.visited ++ [cur]) rest
      (decomposeParse (thinkStrip (env.gen st.genCalls)) cur) hndr hinvr
    split at h
    · next hgt => omega
    · cases h
      exact hblock
  · rw [if_neg hone] at h
    dsimp only at h
    split at h
    · split at h
      · simp at h
      · split at h
        · split at h
          · next hcond =>
            cases h
            constructor
            · rw [List.nodup_append]
              refine ⟨hndr, List.nodup_singleton _, ?_⟩
              intro a ha hb
              rw [List.mem_singleton] at hb
              subst hb
              exact hcond.2.2 ha
            · intro x hx hv
              rcases List.mem_append.mp hx with h1 | h1
              · exact hinvr x h1 hv
              · rw [List.mem_singleton] at h1
                subst h1
                exact absurd hv hcond.2.1
          · cases h
            exact ⟨hndr, hinvr⟩
        · cases h
          exact ⟨hndr, hinvr⟩
    · next hngt => omega

/-- The states a `deep_search` run can be in between loop iterations: the
initial state, and everything one further (non-returning) iteration can
produce. -/
inductive ReachableState (env : Env) (question : String)
    (maxIterations tokenBudget : Nat) : DSState → Prop where
  | init : ReachableState env question maxIterations tokenBudget (initState question)
  | step (st : DSState) (cur : String) (rest : List String) (st' : DSState) :
      ReachableState env question maxIterations tokenBudget st →
      st.gaps = cur :: rest → st.step < maxIterations →
      dsIter env question tokenBudget st cur rest = .next st' →
      ReachableState env question maxIterations tokenBudget st'

/-- C1 — corrected.  In every state a `deep_search` run reaches between
steps, the gap queue holds no two entries equal by exact string value; and
the only entry it can hold that is already in the visited set is the original
question itself — which the decompose step deliberately re-appends to the
tail after having visited it in step 1, so the claim's blanket exclusion of
visited entries does not hold (see the counterexample). -/
theorem c1_queue_invariant_amended (env : Env) (question : String)
    (maxIterations tokenBudget : Nat) (st : DSState)
    (h : ReachableState env question maxIterations tokenBudget st) :
    st.gaps.Nodup ∧ ∀ x ∈ st.gaps, x ∈ st.visited → x = question := by
  induction h with
  | init =>
    refine ⟨by simp [initState], ?_⟩
    intro x hx hv
    simp [initState] at hv
  | step st cur rest st' hr hgaps hlt hiter ih =>
    exact dsIter_queue_inv env question tokenBudget st cur rest st' hgaps hiter ih.1 ih.2

/-- An environment whose decompose response yields one sub-question, making
the decompose step re-append the already-visited original question. -/
def subQEnv : Env := ⟨fun n => if n = 0 then "1. What is A?" else "", fun _ _ => []⟩

/-- C1 — counterexample to the claim as stated: after the decompose step of a
concrete run, the reachable queue `["1. What is A?", "Q"]` contains the
original question "Q", which is already in the visited set. -/
theorem c1_queue_counterexample :
    ReachableState subQEnv "Q" 3 5000
      (nextStateOf (dsIter subQEnv "Q" 5000 (initState "Q") "Q" []))
    ∧ "Q" ∈ (nextStateOf (dsIter subQEnv "Q" 5000 (initState "Q") "Q" [])).gaps
    ∧ "Q" ∈ (nextStateOf (dsIter subQEnv "Q" 5000 (initState "Q") "Q" [])).visited :=
  ⟨ReachableState.step (initState "Q") "Q" [] _ ReachableState.init rfl (by decide)
      (by decide),
   by decide, by decide⟩

/-- C1 — witness: the amended invariant applied to the initial state of a
concrete run. -/
theorem c1_queue_invariant_witness :
    ReachableState subQEnv "Q" 3 5000 (initState "Q")
    ∧ ((initState "Q").gaps.Nodup
      ∧ ∀ x ∈ (initState "Q").gaps, x ∈ (initState "Q").visited → x = "Q") :=
  ⟨ReachableState.init,
   c1_queue_invariant_amended subQEnv "Q" 3 5000 (initState "Q") ReachableState.init⟩
